/-
  Verification of the read path of a PostgreSQL-backed Jaeger span store
  (pgstore/reader.go), shallowly embedded in Lean 4.

  Storage rows (services, operations, spans, span_refs) follow the schema
  described in the specification; the query and reassembly logic is
  translated from `reader.go`.
-/
import Mathlib

set_option linter.unusedVariables false

/-! ## Storage data model

The row types mirror the relational schema
`services(id, service_name)`, `operations(id, operation_name)`,
`spans(id, trace_id_low, trace_id_high, operation_id, service_id,
process_id, process_tags, start_time, duration)`,
`span_refs(id, child_span_id)`. -/

/-- Modelled from the spec: a row of the `services` table. -/
structure Service where
  id : Nat
  service_name : String
  deriving DecidableEq, Repr

/-- Modelled from the spec: a row of the `operations` table. -/
structure Operation where
  id : Nat
  operation_name : String
  deriving DecidableEq, Repr

/-- Modelled from the spec: a row of the `spans` table.  Timestamps are
naturals (0 is Go's zero time); durations are integers (Go `time.Duration`
is a signed 64-bit count of nanoseconds). -/
structure SpanRow where
  id : Nat
  trace_id_low : Nat
  trace_id_high : Nat
  operation_id : Nat
  service_id : Nat
  process_id : String
  process_tags : List (String × String)
  start_time : Nat
  duration : Int
  deriving DecidableEq, Repr

/-- Modelled from the spec: a row of the `span_refs` table, linking a
referencing span row (by `id`) to a referenced (child) span row. -/
structure SpanRef where
  id : Nat
  child_span_id : Nat
  deriving DecidableEq, Repr

/-- The relational store the reader queries: the four tables. -/
structure Storage where
  services : List Service
  operations : List Operation
  spans : List SpanRow
  span_refs : List SpanRef
  deriving DecidableEq, Repr

/-- Service-name lookup performed by the `Relation("Service")` load:
the name of the service row with the given id, or `""` when absent. -/
def serviceNameOf (st : Storage) (sid : Nat) : String :=
  ((st.services.find? (fun v => v.id == sid)).map (fun v => v.service_name)).getD ""

/-- Operation-name lookup performed by the `Relation("Operation")` load. -/
def operationNameOf (st : Storage) (oid : Nat) : String :=
  ((st.operations.find? (fun o => o.id == oid)).map (fun o => o.operation_name)).getD ""

/-! ## Output model -/

/-- Modelled from the spec: the output span projection produced by
`toModelSpan` — trace identifier halves, operation and service names,
start time and duration. -/
structure ModelSpan where
  traceIDLow : Nat
  traceIDHigh : Nat
  operationName : String
  serviceName : String
  startTime : Nat
  duration : Int
  deriving DecidableEq, Repr

/-- Modelled from the spec: `toModelSpan` projects a span row (with its
loaded relations) into the output model. -/
def toModelSpan (st : Storage) (s : SpanRow) : ModelSpan :=
  { traceIDLow := s.trace_id_low
    traceIDHigh := s.trace_id_high
    operationName := operationNameOf st s.operation_id
    serviceName := serviceNameOf st s.service_id
    startTime := s.start_time
    duration := s.duration }

/-- One `model.Trace_ProcessMapping` entry as built in `reader.go`:
the span's process id together with its service name and process tags
(`mapToModelKV` is modelled as the identity on the tag list). -/
structure ProcessMapping where
  processID : String
  serviceName : String
  tags : List (String × String)
  deriving DecidableEq, Repr

/-- The process-mapping entry `reader.go` appends for one span row. -/
def procMapping (st : Storage) (s : SpanRow) : ProcessMapping :=
  { processID := s.process_id
    serviceName := serviceNameOf st s.service_id
    tags := s.process_tags }

/-- A `model.Trace`: span list plus process map. -/
structure ModelTrace where
  spans : List ModelSpan
  processMap : List ProcessMapping
  deriving DecidableEq, Repr

/-! ## whereBuilder

`whereBuilder`/`andWhere` live in a file of the repository that is not
part of the sources at hand; they are modelled from the spec. -/

/-- A positional bound parameter. -/
inductive QParam where
  | str (s : String)
  | nat (n : Nat)
  | int (i : Int)
  deriving DecidableEq, Repr

/-- Modelled from the spec: the filter builder accumulates an ordered list
of (predicate-fragment, bound-parameter) pairs plus a combined predicate
string ready for conjunctive use. -/
structure whereBuilder where
  whereClause : String
  params : List QParam
  conds : List (String × QParam)
  deriving DecidableEq, Repr

/-- The empty (unconstrained) builder. -/
def emptyWhere : whereBuilder := { whereClause := "", params := [], conds := [] }

/-- Modelled from the spec: `andWhere` appends one predicate fragment and
its bound parameter, joining fragments conjunctively with AND in the order
they were emitted. -/
def andWhere (b : whereBuilder) (param : QParam) (filter : String) : whereBuilder :=
  { whereClause := if 0 < b.whereClause.length then b.whereClause ++ " AND " ++ filter else filter
    params := b.params ++ [param]
    conds := b.conds ++ [(filter, param)] }

/-- Meaning of one fragment of the `GetTrace` predicate over a span row. -/
def evalCondSpan (row : SpanRow) : String × QParam → Bool
  | ("trace_id_low = ?", QParam.nat v) => row.trace_id_low == v
  | ("trace_id_high = ?", QParam.nat v) => row.trace_id_high == v
  | _ => false

/-- Conjunctive evaluation of a builder's predicate over a span row; the
empty predicate matches every row. -/
def whereBuilder.evalSpan (b : whereBuilder) (row : SpanRow) : Bool :=
  b.conds.all (evalCondSpan row)

/-- A span row joined to its operation and service rows, as produced by the
`JOIN operations`/`JOIN services` clauses of `FindTraceIDs`. -/
structure JoinedRow where
  span : SpanRow
  serviceName : String
  operationName : String
  deriving DecidableEq, Repr

/-- Meaning of one fragment of the trace-query predicate over a joined row. -/
def evalCondJoined (row : JoinedRow) : String × QParam → Bool
  | ("service.service_name = ?", QParam.str s) => row.serviceName == s
  | ("operation.operation_name = ?", QParam.str s) => row.operationName == s
  | ("start_time >= ?", QParam.nat t) => decide (t ≤ row.span.start_time)
  | ("duration < ?", QParam.int d) => decide (row.span.duration < d)
  | ("duration > ?", QParam.int d) => decide (d < row.span.duration)
  | _ => false

/-- Conjunctive evaluation of a builder's predicate over a joined row. -/
def whereBuilder.evalJoined (b : whereBuilder) (row : JoinedRow) : Bool :=
  b.conds.all (evalCondJoined row)

/-! ## GetTrace (reader.go lines 64–94) -/

/-- The predicate `GetTrace` builds: each trace-id half is constrained only
when it is non-zero. -/
def getTraceBuilder (low high : Nat) : whereBuilder :=
  let b0 := emptyWhere
  let b1 := if 0 < low then andWhere b0 (QParam.nat low) "trace_id_low = ?" else b0
  if 0 < high then andWhere b1 (QParam.nat high) "trace_id_high = ?" else b1

/-- `GetTrace`: select span rows by the built predicate, project each into a
model span, and append one process-map entry per selected row. -/
def GetTrace (st : Storage) (low high : Nat) : ModelTrace :=
  let b := getTraceBuilder low high
  let rows := st.spans.filter (fun s => b.evalSpan s)
  { spans := rows.map (toModelSpan st)
    processMap := rows.map (procMapping st) }

/-! ## buildTraceWhere (reader.go lines 96–121) -/

/-- The trace-query criteria (`spanstore.TraceQueryParameters`): zero
values denote absent fields, timestamps are naturals with 0 as Go's zero
time, durations are integers. -/
structure TraceQueryParameters where
  serviceName : String
  operationName : String
  startTimeMin : Nat
  startTimeMax : Nat
  durationMin : Int
  durationMax : Int
  numTraces : Int
  deriving DecidableEq, Repr

/-- `buildTraceWhere`: emit one fragment per present criterion, in source
order; the `StartTimeMax` and tag branches emit nothing (TODO in source).
The duration comparisons are transcribed exactly as the source binds them:
`durationMin` to `duration < ?` and `durationMax` to `duration > ?`. -/
def buildTraceWhere (query : TraceQueryParameters) : whereBuilder :=
  let b0 := emptyWhere
  let b1 := if 0 < query.serviceName.length then
      andWhere b0 (QParam.str query.serviceName) "service.service_name = ?" else b0
  let b2 := if 0 < query.operationName.length then
      andWhere b1 (QParam.str query.operationName) "operation.operation_name = ?" else b1
  let b3 := if 0 < query.startTimeMin then
      andWhere b2 (QParam.nat query.startTimeMin) "start_time >= ?" else b2
  let b4 := if 0 < query.durationMin then
      andWhere b3 (QParam.int query.durationMin) "duration < ?" else b3
  if 0 < query.durationMax then
      andWhere b4 (QParam.int query.durationMax) "duration > ?" else b4

/-! ## FindTraceIDs (reader.go lines 171–187) -/

/-- The inner joins of `FindTraceIDs`: a span row joined to its operation
and service rows; rows with no matching operation or service are dropped. -/
def joinRow (st : Storage) (s : SpanRow) : Option JoinedRow :=
  match st.operations.find? (fun o => o.id == s.operation_id),
        st.services.find? (fun v => v.id == s.service_id) with
  | some o, some v =>
      some { span := s, serviceName := v.service_name, operationName := o.operation_name }
  | _, _ => none

/-- `FindTraceIDs`: join spans to operations and services, filter by the
built predicate, project `distinct (trace_id_low, trace_id_high)` pairs and
limit the result to `100 * limit` rows, where `limit` is `numTraces` or the
default 10 when `numTraces ≤ 0`. -/
def FindTraceIDs (st : Storage) (query : TraceQueryParameters) : List (Nat × Nat) :=
  let b := buildTraceWhere query
  let limit : Int := if query.numTraces ≤ 0 then 10 else query.numTraces
  let rows := st.spans.filterMap (joinRow st)
  let matching := rows.filter (fun r => b.evalJoined r)
  let ids := (matching.map (fun r => (r.span.trace_id_low, r.span.trace_id_high))).dedup
  ids.take (100 * limit).toNat

/-! ## FindTraces (reader.go lines 124–168) -/

/-- The per-trace fetch of `FindTraces`: span rows with exactly the given
trace-id pair, ordered by `start_time ASC`. -/
def fetchSpans (st : Storage) (tid : Nat × Nat) : List SpanRow :=
  List.insertionSort (fun a b => a.start_time ≤ b.start_time)
    (st.spans.filter (fun s => s.trace_id_low == tid.1 && s.trace_id_high == tid.2))

/-- The grouping key of a model span: its trace-id pair. -/
def spanKey (sp : ModelSpan) : Nat × Nat := (sp.traceIDLow, sp.traceIDHigh)

/-- The trace-id pair of a span row. -/
def rowKey (s : SpanRow) : Nat × Nat := (s.trace_id_low, s.trace_id_high)

/-- One iteration of the inner loop of `FindTraces`: append the model span
and its process-map entry to the trace grouped under the span's trace id,
creating the group when absent.  The grouping map is an insertion-ordered
association list. -/
def addSpan : List ((Nat × Nat) × ModelTrace) → (Nat × Nat) → ModelSpan → ProcessMapping →
    List ((Nat × Nat) × ModelTrace)
  | [], key, sp, pm => [(key, { spans := [sp], processMap := [pm] })]
  | (k, t) :: rest, key, sp, pm =>
      if k = key then
        (k, { spans := t.spans ++ [sp], processMap := t.processMap ++ [pm] }) :: rest
      else
        (k, t) :: addSpan rest key sp pm

/-- The inner loop of `FindTraces` over one fetched batch of span rows. -/
def addFetched (st : Storage) (g : List ((Nat × Nat) × ModelTrace)) (rows : List SpanRow) :
    List ((Nat × Nat) × ModelTrace) :=
  rows.foldl (fun g r => addSpan g (spanKey (toModelSpan st r)) (toModelSpan st r) (procMapping st r)) g

/-- The outer loop of `FindTraces` over the resolved trace ids; `oracle`
models the storage layer's per-fetch outcome (`some e` is a query error).
On the first error the loop stops with the grouping built so far. -/
def findTracesLoop (st : Storage) (oracle : Nat × Nat → Option String) :
    List (Nat × Nat) → List ((Nat × Nat) × ModelTrace) →
    List ((Nat × Nat) × ModelTrace) × Option String
  | [], g => (g, none)
  | tid :: tids, g =>
      match oracle tid with
      | some e => (g, some e)
      | none => findTracesLoop st oracle tids (addFetched st g (fetchSpans st tid))

/-- `FindTraces` with an explicit storage-failure oracle: resolve the trace
ids, assemble each trace, and on a mid-batch error return the error together
with the preallocated (still empty) result slice, exactly as the source
returns `ret, err` before any trace is appended to `ret`. -/
def FindTracesWith (st : Storage) (oracle : Nat × Nat → Option String)
    (query : TraceQueryParameters) : List ModelTrace × Option String :=
  match findTracesLoop st oracle (FindTraceIDs st query) [] with
  | (_, some e) => ([], some e)
  | (g, none) => (g.map (fun p => p.2), none)

/-- `FindTraces` against error-free storage. -/
def FindTraces (st : Storage) (query : TraceQueryParameters) : List ModelTrace × Option String :=
  FindTracesWith st (fun _ => none) query

/-! ## GetDependencies (reader.go lines 190–209) -/

/-- One row of the dependency query's projection, before grouping: the
referencing span's service id and name, the referenced span's service id,
and the name joined through `child_service.id = source_spans.service_id`
exactly as the source writes the join. -/
structure DepRow where
  parent : Nat
  parent_name : String
  child : Nat
  child_name : String
  deriving DecidableEq, Repr

/-- The joins of `GetDependencies`: for each `span_refs` row, join the
referencing span on `source_spans.id = span_ref.id`, its service, the
referenced span on `child_spans.id = span_ref.child_span_id`, and
`child_service` on `child_service.id = source_spans.service_id` (transcribed
from the source as written). -/
def depRows (st : Storage) : List DepRow :=
  st.span_refs.filterMap (fun ref =>
    match st.spans.find? (fun s => s.id == ref.id) with
    | none => none
    | some src =>
      match st.services.find? (fun v => v.id == src.service_id) with
      | none => none
      | some srcSvc =>
        match st.spans.find? (fun s => s.id == ref.child_span_id) with
        | none => none
        | some chSpan =>
          match st.services.find? (fun v => v.id == src.service_id) with
          | none => none
          | some chSvc =>
            some { parent := src.service_id
                   parent_name := srcSvc.service_name
                   child := chSpan.service_id
                   child_name := chSvc.service_name })

/-- An aggregated dependency link: the grouped tuple plus its edge count. -/
structure DependencyLink where
  parent : Nat
  parentName : String
  child : Nat
  childName : String
  callCount : Nat
  deriving DecidableEq, Repr

/-- Group-and-count step: bump the count of the link matching the row's
grouped tuple, appending a fresh link with count 1 when none matches. -/
def bumpLink : List DependencyLink → DepRow → List DependencyLink
  | [], r => [{ parent := r.parent, parentName := r.parent_name,
                child := r.child, childName := r.child_name, callCount := 1 }]
  | l :: rest, r =>
      if l.parent = r.parent ∧ l.parentName = r.parent_name
          ∧ l.child = r.child ∧ l.childName = r.child_name then
        { l with callCount := l.callCount + 1 } :: rest
      else
        l :: bumpLink rest r

/-- `GetDependencies`: group the joined reference edges by
(parent id, parent name, child id, child name) and count each group.
The `endTs` and `lookback` parameters are transcribed from the source,
which never uses them in the query. -/
def GetDependencies (st : Storage) (endTs : Nat) (lookback : Nat) : List DependencyLink :=
  (depRows st).foldl bumpLink []

/-! ## GetServices / GetOperations (reader.go lines 33–61)

Each takes the rows the storage layer materialized (the SQL layer orders
them by name ascending) together with the storage layer's error, filters
out empty names, and returns the names with the error unchanged. -/

/-- `GetServices` applied to the materialized `services` rows and the
storage error of the select. -/
def GetServices (dbServices : List Service) (dbErr : Option String) :
    List String × Option String :=
  ((dbServices.filter (fun s => 0 < s.service_name.length)).map (fun s => s.service_name), dbErr)

/-- `GetOperations` applied to the materialized `operations` rows and the
storage error of the select; the service parameter of the source is unused
by its query. -/
def GetOperations (dbOperations : List Operation) (dbErr : Option String) :
    List String × Option String :=
  ((dbOperations.filter (fun o => 0 < o.operation_name.length)).map
      (fun o => o.operation_name), dbErr)

/-! ## Concrete fixtures used to evaluate the code on explicit inputs -/

/-- Helper to build a span row concisely. -/
def mkSpan (id lo hi opId svcId : Nat) (proc : String) (startT : Nat) (dur : Int) : SpanRow :=
  { id := id, trace_id_low := lo, trace_id_high := hi, operation_id := opId,
    service_id := svcId, process_id := proc, process_tags := [],
    start_time := startT, duration := dur }

/-- Criteria with every field absent. -/
def qEmpty : TraceQueryParameters :=
  { serviceName := "", operationName := "", startTimeMin := 0, startTimeMax := 0,
    durationMin := 0, durationMax := 0, numTraces := 0 }

/-- A store holding one trace of two spans that share process id "p". -/
def stTwoSpansOneProc : Storage :=
  { services := [{ id := 1, service_name := "x" }]
    operations := [{ id := 1, operation_name := "o" }]
    spans := [mkSpan 1 1 1 1 1 "p" 0 5, mkSpan 2 1 1 1 1 "p" 1 5]
    span_refs := [] }

/-- A store with spans S1 (service "a") and S2 (service "b") and one
reference edge from S1 to S2. -/
def stOneEdge : Storage :=
  { services := [{ id := 1, service_name := "a" }, { id := 2, service_name := "b" }]
    operations := [{ id := 1, operation_name := "o" }]
    spans := [mkSpan 1 1 0 1 1 "p1" 0 5, mkSpan 2 1 0 1 2 "p2" 1 5]
    span_refs := [{ id := 1, child_span_id := 2 }] }

/-- A store with eleven spans in eleven distinct traces. -/
def stElevenTraces : Storage :=
  { services := [{ id := 1, service_name := "a" }]
    operations := [{ id := 1, operation_name := "o" }]
    spans := (List.range 11).map (fun k => mkSpan (k + 1) (k + 1) 0 1 1 "p" 0 5)
    span_refs := [] }

/-- A store with two traces of one span each. -/
def stTwoTraces : Storage :=
  { services := [{ id := 1, service_name := "a" }]
    operations := [{ id := 1, operation_name := "o" }]
    spans := [mkSpan 1 1 0 1 1 "p" 0 5, mkSpan 2 2 0 1 1 "p" 0 5]
    span_refs := [] }

/-- An oracle failing the fetch of trace id (2, 0) only. -/
def oracleFailSecond : Nat × Nat → Option String :=
  fun tid => if tid = (2, 0) then some "storage error" else none

/-- A store with one trace of two spans whose storage order is the reverse
of their start-time order. -/
def stUnsorted : Storage :=
  { services := [{ id := 1, service_name := "a" }]
    operations := [{ id := 1, operation_name := "o" }]
    spans := [mkSpan 1 1 2 1 1 "p" 5 7, mkSpan 2 1 2 1 1 "q" 3 7]
    span_refs := [] }

/-- The trace `FindTraces` assembles from `stUnsorted`. -/
def traceUnsorted : ModelTrace :=
  { spans := (fetchSpans stUnsorted (1, 2)).map (toModelSpan stUnsorted)
    processMap := (fetchSpans stUnsorted (1, 2)).map (procMapping stUnsorted) }

/-- Criteria setting only `durationMin` (to 5). -/
def qDurMin5 : TraceQueryParameters := { qEmpty with durationMin := 5 }

/-- Criteria setting `durationMin := 5` and `durationMax := 10`. -/
def qDur5to10 : TraceQueryParameters := { qEmpty with durationMin := 5, durationMax := 10 }

/-- Criteria setting a service name and both duration bounds. -/
def qSvcAndDur : TraceQueryParameters :=
  { qEmpty with serviceName := "a", durationMin := 5, durationMax := 10 }

/-- A joined row whose span has the given duration. -/
def rowOfDur (d : Int) : JoinedRow :=
  { span := mkSpan 1 1 0 1 1 "p" 0 d, serviceName := "a", operationName := "o" }

/-! ## Theorems -/

/-- C1: the claim says the process map of a trace returned by `GetTrace`
holds exactly one entry per distinct process identifier.  The code appends
one entry per span: the process map always has one entry per returned
span, and on a two-span trace whose spans share process id "p" it holds
two entries though only one distinct process id occurs. -/
theorem getTrace_processMap_one_entry_per_span :
    (∀ (st : Storage) (low high : Nat),
        ((GetTrace st low high).processMap).length = ((GetTrace st low high).spans).length)
    ∧ (GetTrace stTwoSpansOneProc 1 1).spans.length = 2
    ∧ (GetTrace stTwoSpansOneProc 1 1).processMap.length = 2
    ∧ ((GetTrace stTwoSpansOneProc 1 1).processMap.map (fun m => m.processID)).dedup = ["p"] := by
  refine ⟨fun st low high => ?_, by decide, by decide, by decide⟩
  simp [GetTrace]

/-- C2: the claim says the child service of a dependency link is the service
of the referenced (child) span, resolved independently of the parent.  On a
store with S1 (service "a") referencing S2 (service "b"), the code emits the
link with child name "a" — the parent's service name — because the
`child_service` join uses `source_spans.service_id`. -/
theorem getDependencies_child_name_from_parent_service :
    GetDependencies stOneEdge 100 50 =
      [{ parent := 1, parentName := "a", child := 2, childName := "a", callCount := 1 }]
    ∧ serviceNameOf stOneEdge 2 = "b" := by
  exact ⟨by decide, by decide⟩

/-- C5: the claim says `GetDependencies` counts only edges inside the
window [endTs − lookback, endTs].  The code never uses `endTs` or
`lookback`: the result is identical for every window, and even the empty
window (endTs 0, lookback 0) still yields the link of `stOneEdge`. -/
theorem getDependencies_window_unused :
    (∀ (st : Storage) (e1 l1 e2 l2 : Nat),
        GetDependencies st e1 l1 = GetDependencies st e2 l2)
    ∧ GetDependencies stOneEdge 0 0 ≠ [] := by
  exact ⟨fun _ _ _ _ _ => rfl, by decide⟩

/-- C4: the claim says a set `durationMin` constrains duration ≥ min and a
set `durationMax` constrains duration ≤ max.  The code binds `durationMin`
to `duration < ?` and `durationMax` to `duration > ?`: a span of duration 3
passes a min-5 filter while a span of duration 7 fails it, and a filter
with min 5 and max 10 rejects every row. -/
theorem buildTraceWhere_duration_comparisons_inverted :
    ((buildTraceWhere qDurMin5).evalJoined (rowOfDur 3) = true ∧ ¬ ((5 : Int) ≤ 3))
    ∧ ((buildTraceWhere qDurMin5).evalJoined (rowOfDur 7) = false ∧ (5 : Int) ≤ 7)
    ∧ (∀ row : JoinedRow, (buildTraceWhere qDur5to10).evalJoined row = false) := by
  refine ⟨⟨by decide, by decide⟩, ⟨by decide, by decide⟩, fun row => ?_⟩
  show ((decide (row.span.duration < 5)) && ((decide ((10 : Int) < row.span.duration)) && true)) = false
  simp only [Bool.and_true, Bool.and_eq_false_iff, decide_eq_false_iff_not, not_lt]
  omega

/-- The trace-id list `FindTraceIDs` produces is deduplicated (shared
helper: `distinct` projection followed by a `take`). -/
lemma findTraceIDs_nodup (st : Storage) (query : TraceQueryParameters) :
    (FindTraceIDs st query).Nodup := by
  unfold FindTraceIDs
  exact (List.nodup_dedup _).sublist (List.take_sublist _ _)

/-- C3 counterexample: the claim bounds the result length by `numTraces`
(default 10 when unspecified).  On a store with eleven one-span traces and
criteria leaving `numTraces` unset, the code returns eleven trace ids,
exceeding the claimed default bound of 10. -/
theorem findTraceIDs_default_bound_exceeded :
    (FindTraceIDs stElevenTraces qEmpty).length = 11
    ∧ ¬ ((FindTraceIDs stElevenTraces qEmpty).length ≤ 10) := by
  exact ⟨by decide, by decide⟩

/-- C3 amended: `FindTraceIDs` returns no duplicate trace identifiers and
its length is bounded by 100 × `numTraces` (100 × 10 when `numTraces` is
unspecified or ≤ 0), the limit the code actually applies. -/
theorem findTraceIDs_nodup_and_bounded (st : Storage) (query : TraceQueryParameters) :
    (FindTraceIDs st query).Nodup
    ∧ (FindTraceIDs st query).length ≤
        (100 * (if query.numTraces ≤ 0 then 10 else query.numTraces)).toNat := by
  refine ⟨findTraceIDs_nodup st query, ?_⟩
  unfold FindTraceIDs
  exact List.length_take_le _ _

/-- C6 counterexample: the claim says a mid-batch assembly failure surfaces
the error together with the traces already assembled.  On a store with two
one-span traces, with the per-trace fetch failing only on the second trace
id, the first trace is assemblable (the error-free run returns both), yet
the failing run returns the error with an empty collection. -/
theorem findTraces_partial_batch_discarded :
    FindTraceIDs stTwoTraces qEmpty = [(1, 0), (2, 0)]
    ∧ oracleFailSecond (1, 0) = none
    ∧ (FindTracesWith stTwoTraces (fun _ => none) qEmpty).1.length = 2
    ∧ FindTracesWith stTwoTraces oracleFailSecond qEmpty = ([], some "storage error") := by
  exact ⟨by decide, by decide, by decide, by decide⟩

/-- C6 amended: when `FindTraces` fails while assembling one trace of a
batch, it returns the storage error together with an empty trace
collection, discarding the traces already assembled. -/
theorem findTraces_error_returns_empty (st : Storage) (oracle : Nat × Nat → Option String)
    (query : TraceQueryParameters) (e : String)
    (h : (FindTracesWith st oracle query).2 = some e) :
    (FindTracesWith st oracle query).1 = [] := by
  rcases hL : findTracesLoop st oracle (FindTraceIDs st query) [] with ⟨g, err⟩
  cases err with
  | none => simp [FindTracesWith, hL] at h
  | some e2 => simp [FindTracesWith, hL]

/-- Witness for the amended C6 theorem at the concrete two-trace store. -/
theorem findTraces_error_returns_empty_witness :
    (FindTracesWith stTwoTraces oracleFailSecond qEmpty).1 = [] :=
  findTraces_error_returns_empty stTwoTraces oracleFailSecond qEmpty "storage error" (by decide)

/-- C9: `GetServices` and `GetOperations` keep the storage layer's
ascending name order (filtering cannot reorder), never include an empty
name even when such a row was materialized, and return the storage error
unchanged alongside the list built from whatever rows were materialized. -/
theorem getServices_getOperations_sorted_nonempty_partial
    (svcRows : List Service) (opRows : List Operation) (e1 e2 : Option String)
    (hs : (svcRows.map (fun s => s.service_name)).Sorted (· ≤ ·))
    (ho : (opRows.map (fun o => o.operation_name)).Sorted (· ≤ ·)) :
    ((GetServices svcRows e1).1.Sorted (· ≤ ·)
      ∧ "" ∉ (GetServices svcRows e1).1
      ∧ (GetServices svcRows e1).2 = e1)
    ∧ ((GetOperations opRows e2).1.Sorted (· ≤ ·)
      ∧ "" ∉ (GetOperations opRows e2).1
      ∧ (GetOperations opRows e2).2 = e2) := by
  have key : ∀ (α : Type) (rows : List α) (name : α → String),
      ((rows.map name).Sorted (· ≤ ·)) →
      (((rows.filter (fun x => 0 < (name x).length)).map name).Sorted (· ≤ ·))
      ∧ "" ∉ (rows.filter (fun x => 0 < (name x).length)).map name := by
    intro α rows name hsorted
    constructor
    · exact hsorted.sublist ((List.filter_sublist rows).map name)
    · intro hmem
      rcases List.mem_map.1 hmem with ⟨x, hx, hname⟩
      rcases List.mem_filter.1 hx with ⟨-, hpos⟩
      rw [hname] at hpos
      simp at hpos
  refine ⟨⟨(key _ svcRows _ hs).1, (key _ svcRows _ hs).2, rfl⟩,
          ⟨(key _ opRows _ ho).1, (key _ opRows _ ho).2, rfl⟩⟩

/-- Witness for C9 at a concrete store holding an empty-named service row. -/
theorem getServices_getOperations_sorted_nonempty_partial_witness :
    ((GetServices [{ id := 2, service_name := "" }, { id := 1, service_name := "a" }]
        (some "boom")).1.Sorted (· ≤ ·)
      ∧ "" ∉ (GetServices [{ id := 2, service_name := "" }, { id := 1, service_name := "a" }]
        (some "boom")).1
      ∧ (GetServices [{ id := 2, service_name := "" }, { id := 1, service_name := "a" }]
        (some "boom")).2 = some "boom")
    ∧ ((GetOperations [{ id := 1, operation_name := "o" }] none).1.Sorted (· ≤ ·)
      ∧ "" ∉ (GetOperations [{ id := 1, operation_name := "o" }] none).1
      ∧ (GetOperations [{ id := 1, operation_name := "o" }] none).2 = none) :=
  getServices_getOperations_sorted_nonempty_partial
    [{ id := 2, service_name := "" }, { id := 1, service_name := "a" }]
    [{ id := 1, operation_name := "o" }] (some "boom") none
    (by simp [String.le_iff_toList_le]) (by simp)

/-- C10: `GetTrace` constrains a trace-id half only when it is non-zero —
with both halves zero every span row in storage is selected into the one
returned trace, and with exactly one half non-zero only that half is
constrained, so the selected rows are exactly those matching it. -/
theorem getTrace_zero_half_filtering (st : Storage) (low high : Nat)
    (hlow : low ≠ 0) (hhigh : high ≠ 0) :
    (GetTrace st 0 0).spans = st.spans.map (toModelSpan st)
    ∧ (GetTrace st low 0).spans =
        (st.spans.filter (fun s => s.trace_id_low == low)).map (toModelSpan st)
    ∧ (GetTrace st 0 high).spans =
        (st.spans.filter (fun s => s.trace_id_high == high)).map (toModelSpan st) := by
  have hl : 0 < low := Nat.pos_of_ne_zero hlow
  have hh : 0 < high := Nat.pos_of_ne_zero hhigh
  refine ⟨?_, ?_, ?_⟩
  · simp [GetTrace, getTraceBuilder, emptyWhere, whereBuilder.evalSpan]
  · simp only [GetTrace, getTraceBuilder, emptyWhere, hl, if_pos, lt_irrefl, if_neg,
      Nat.lt_irrefl, andWhere]
    congr 1
    apply List.filter_congr
    intro s _
    show ((evalCondSpan s ("trace_id_low = ?", QParam.nat low)) && true) = (s.trace_id_low == low)
    simp [evalCondSpan]
  · simp only [GetTrace, getTraceBuilder, emptyWhere, hh, if_pos, lt_irrefl, if_neg,
      Nat.lt_irrefl, andWhere]
    congr 1
    apply List.filter_congr
    intro s _
    show ((evalCondSpan s ("trace_id_high = ?", QParam.nat high)) && true) = (s.trace_id_high == high)
    simp [evalCondSpan]

/-- Witness for C10 at the two-store fixtures with non-zero halves 1 and 1. -/
theorem getTrace_zero_half_filtering_witness :
    (GetTrace stTwoTraces 0 0).spans = stTwoTraces.spans.map (toModelSpan stTwoTraces)
    ∧ (GetTrace stTwoTraces 1 0).spans =
        (stTwoTraces.spans.filter (fun s => s.trace_id_low == 1)).map (toModelSpan stTwoTraces)
    ∧ (GetTrace stTwoTraces 0 1).spans =
        (stTwoTraces.spans.filter (fun s => s.trace_id_high == 1)).map (toModelSpan stTwoTraces) :=
  getTrace_zero_half_filtering stTwoTraces 1 1 (by decide) (by decide)

/-- The fragment list `buildTraceWhere` emits, in normal form: one fragment
per present criterion, in source evaluation order. -/
lemma buildTraceWhere_conds (query : TraceQueryParameters) :
    (buildTraceWhere query).conds =
      (if 0 < query.serviceName.length then
          [("service.service_name = ?", QParam.str query.serviceName)] else [])
      ++ (if 0 < query.operationName.length then
          [("operation.operation_name = ?", QParam.str query.operationName)] else [])
      ++ (if 0 < query.startTimeMin then
          [("start_time >= ?", QParam.nat query.startTimeMin)] else [])
      ++ (if 0 < query.durationMin then
          [("duration < ?", QParam.int query.durationMin)] else [])
      ++ (if 0 < query.durationMax then
          [("duration > ?", QParam.int query.durationMax)] else []) := by
  by_cases h1 : 0 < query.serviceName.length <;>
    by_cases h2 : 0 < query.operationName.length <;>
    by_cases h3 : 0 < query.startTimeMin <;>
    by_cases h4 : 0 < query.durationMin <;>
    by_cases h5 : 0 < query.durationMax <;>
    simp [buildTraceWhere, andWhere, emptyWhere, h1, h2, h3, h4, h5]

/-- The rendered predicate string is the AND-join of the emitted fragments. -/
lemma buildTraceWhere_whereClause (query : TraceQueryParameters) :
    (buildTraceWhere query).whereClause =
      String.intercalate " AND " ((buildTraceWhere query).conds.map Prod.fst) := by
  by_cases h1 : 0 < query.serviceName.length <;>
    by_cases h2 : 0 < query.operationName.length <;>
    by_cases h3 : 0 < query.startTimeMin <;>
    by_cases h4 : 0 < query.durationMin <;>
    by_cases h5 : 0 < query.durationMax <;>
    simp [buildTraceWhere, andWhere, emptyWhere, h1, h2, h3, h4, h5, String.intercalate] <;>
    decide

/-- C8: `buildTraceWhere` emits a fragment exactly when the corresponding
criterion is present/non-zero, in order service → operation → start-time →
duration bounds; the rendered predicate is the AND-join of the fragments;
the predicate evaluates conjunctively (each present criterion must hold on
the row); and entirely empty criteria yield the unconstrained predicate
matching every row. -/
theorem buildTraceWhere_conjunctive_iff_present
    (query : TraceQueryParameters) (row : JoinedRow) :
    ((buildTraceWhere query).conds.map Prod.fst =
        (if 0 < query.serviceName.length then ["service.service_name = ?"] else [])
        ++ (if 0 < query.operationName.length then ["operation.operation_name = ?"] else [])
        ++ (if 0 < query.startTimeMin then ["start_time >= ?"] else [])
        ++ (if 0 < query.durationMin then ["duration < ?"] else [])
        ++ (if 0 < query.durationMax then ["duration > ?"] else []))
    ∧ ((buildTraceWhere query).whereClause =
        String.intercalate " AND " ((buildTraceWhere query).conds.map Prod.fst))
    ∧ ((buildTraceWhere query).evalJoined row = true ↔
        ((0 < query.serviceName.length → row.serviceName = query.serviceName)
          ∧ (0 < query.operationName.length → row.operationName = query.operationName)
          ∧ (0 < query.startTimeMin → query.startTimeMin ≤ row.span.start_time)
          ∧ (0 < query.durationMin → row.span.duration < query.durationMin)
          ∧ (0 < query.durationMax → query.durationMax < row.span.duration)))
    ∧ (query.serviceName.length = 0 → query.operationName.length = 0 →
        query.startTimeMin = 0 → query.durationMin ≤ 0 → query.durationMax ≤ 0 →
        (buildTraceWhere query).conds = []
          ∧ (buildTraceWhere query).whereClause = ""
          ∧ (buildTraceWhere query).evalJoined row = true) := by
  refine ⟨?_, buildTraceWhere_whereClause query, ?_, ?_⟩
  · rw [buildTraceWhere_conds]
    by_cases h1 : 0 < query.serviceName.length <;>
      by_cases h2 : 0 < query.operationName.length <;>
      by_cases h3 : 0 < query.startTimeMin <;>
      by_cases h4 : 0 < query.durationMin <;>
      by_cases h5 : 0 < query.durationMax <;>
      simp [h1, h2, h3, h4, h5]
  · rw [whereBuilder.evalJoined, buildTraceWhere_conds]
    by_cases h1 : 0 < query.serviceName.length <;>
      by_cases h2 : 0 < query.operationName.length <;>
      by_cases h3 : 0 < query.startTimeMin <;>
      by_cases h4 : 0 < query.durationMin <;>
      by_cases h5 : 0 < query.durationMax <;>
      simp [h1, h2, h3, h4, h5, evalCondJoined, Nat.not_lt, Nat.le_zero]
  · intro e1 e2 e3 e4 e5
    have h1 : ¬ 0 < query.serviceName.length := by omega
    have h2 : ¬ 0 < query.operationName.length := by omega
    have h3 : ¬ 0 < query.startTimeMin := by omega
    have h4 : ¬ 0 < query.durationMin := by omega
    have h5 : ¬ 0 < query.durationMax := by omega
    refine ⟨?_, ?_, ?_⟩
    · simp [buildTraceWhere_conds, h1, h2, h3, h4, h5]
    · rw [buildTraceWhere_whereClause]
      simp [buildTraceWhere_conds, h1, h2, h3, h4, h5, String.intercalate]
    · rw [whereBuilder.evalJoined]
      simp [buildTraceWhere_conds, h1, h2, h3, h4, h5]

/-- Witness for C8 at concrete criteria (service + both duration bounds
set) and a concrete matching row. -/
theorem buildTraceWhere_conjunctive_iff_present_witness :
    (buildTraceWhere qSvcAndDur).conds.map Prod.fst =
      ["service.service_name = ?"] ++ [] ++ [] ++ ["duration < ?"] ++ ["duration > ?"] :=
  ((buildTraceWhere_conjunctive_iff_present qSvcAndDur (rowOfDur 3)).1).trans (by decide)

/-- The keys of a grouping association list. -/
def keysOf (g : List ((Nat × Nat) × ModelTrace)) : List (Nat × Nat) :=
  g.map Prod.fst

/-- Every trace in the grouping has its spans in ascending start-time order. -/
def goodGrouping (g : List ((Nat × Nat) × ModelTrace)) : Prop :=
  ∀ p ∈ g, (p.2).spans.Sorted (fun a b : ModelSpan => a.startTime ≤ b.startTime)

lemma addSpan_of_not_mem (g : List ((Nat × Nat) × ModelTrace)) (key : Nat × Nat)
    (sp : ModelSpan) (pm : ProcessMapping) (h : key ∉ keysOf g) :
    addSpan g key sp pm = g ++ [(key, { spans := [sp], processMap := [pm] })] := by
  induction g with
  | nil => rfl
  | cons p rest ih =>
    obtain ⟨k, t⟩ := p
    simp only [keysOf, List.map_cons, List.mem_cons, not_or] at h
    have hk : ¬ (k = key) := fun e => h.1 e.symm
    simp only [addSpan, if_neg hk, List.cons_append, List.cons.injEq, true_and]
    exact ih h.2

lemma addSpan_last (g : List ((Nat × Nat) × ModelTrace)) (key : Nat × Nat)
    (t : ModelTrace) (sp : ModelSpan) (pm : ProcessMapping) (h : key ∉ keysOf g) :
    addSpan (g ++ [(key, t)]) key sp pm
      = g ++ [(key, { spans := t.spans ++ [sp], processMap := t.processMap ++ [pm] })] := by
  induction g with
  | nil => simp [addSpan]
  | cons p rest ih =>
    obtain ⟨k, t2⟩ := p
    simp only [keysOf, List.map_cons, List.mem_cons, not_or] at h
    have hk : ¬ (k = key) := fun e => h.1 e.symm
    simp only [List.cons_append, addSpan, if_neg hk, List.cons.injEq, true_and]
    exact ih h.2

lemma addFetched_last (st : Storage) (g : List ((Nat × Nat) × ModelTrace))
    (key : Nat × Nat) (h : key ∉ keysOf g) :
    ∀ (rows : List SpanRow) (t : ModelTrace), (∀ r ∈ rows, rowKey r = key) →
      addFetched st (g ++ [(key, t)]) rows
        = g ++ [(key, { spans := t.spans ++ rows.map (toModelSpan st),
                        processMap := t.processMap ++ rows.map (procMapping st) })] := by
  intro rows
  induction rows with
  | nil => intro t _; simp [addFetched]
  | cons r rs ih =>
    intro t hk
    have hr : spanKey (toModelSpan st r) = key := hk r (List.mem_cons_self r rs)
    simp only [addFetched, List.foldl_cons] at ih ⊢
    rw [hr, addSpan_last g key t (toModelSpan st r) (procMapping st r) h]
    rw [ih _ (fun r2 h2 => hk r2 (List.mem_cons_of_mem r h2))]
    simp

lemma addFetched_fresh (st : Storage) (g : List ((Nat × Nat) × ModelTrace))
    (key : Nat × Nat) (rows : List SpanRow) (h : key ∉ keysOf g)
    (hk : ∀ r ∈ rows, rowKey r = key) :
    addFetched st g rows = g ∨
    addFetched st g rows
      = g ++ [(key, { spans := rows.map (toModelSpan st),
                      processMap := rows.map (procMapping st) })] := by
  cases rows with
  | nil => exact Or.inl rfl
  | cons r rs =>
    refine Or.inr ?_
    have hr : spanKey (toModelSpan st r) = key := hk r (List.mem_cons_self r rs)
    simp only [addFetched, List.foldl_cons]
    rw [hr, addSpan_of_not_mem g key (toModelSpan st r) (procMapping st r) h]
    have := addFetched_last st g key h rs
      { spans := [toModelSpan st r], processMap := [procMapping st r] }
      (fun r2 h2 => hk r2 (List.mem_cons_of_mem r h2))
    simp only [addFetched] at this
    rw [this]
    simp

lemma fetchSpans_key (st : Storage) (tid : Nat × Nat) :
    ∀ r ∈ fetchSpans st tid, rowKey r = tid := by
  intro r hr
  have hmem : r ∈ st.spans.filter
      (fun s => s.trace_id_low == tid.1 && s.trace_id_high == tid.2) :=
    (List.perm_insertionSort _ _).mem_iff.1 hr
  have hcond := (List.mem_filter.1 hmem).2
  simp only [Bool.and_eq_true, beq_iff_eq] at hcond
  have : rowKey r = (tid.1, tid.2) := by
    rw [rowKey, hcond.1, hcond.2]
  simpa using this

lemma fetchSpans_sorted (st : Storage) (tid : Nat × Nat) :
    (fetchSpans st tid).Sorted (fun a b : SpanRow => a.start_time ≤ b.start_time) := by
  have : IsTotal SpanRow (fun a b : SpanRow => a.start_time ≤ b.start_time) :=
    ⟨fun a b => Nat.le_total _ _⟩
  have : IsTrans SpanRow (fun a b : SpanRow => a.start_time ≤ b.start_time) :=
    ⟨fun _ _ _ h1 h2 => Nat.le_trans h1 h2⟩
  exact List.sorted_insertionSort _ _

lemma fetchSpans_map_sorted (st : Storage) (tid : Nat × Nat) :
    ((fetchSpans st tid).map (toModelSpan st)).Sorted
      (fun a b : ModelSpan => a.startTime ≤ b.startTime) :=
  (fetchSpans_sorted st tid).map (toModelSpan st) (fun _ _ hab => hab)

lemma findTracesLoop_good (st : Storage) (oracle : Nat × Nat → Option String) :
    ∀ (tids : List (Nat × Nat)) (g : List ((Nat × Nat) × ModelTrace)),
      tids.Nodup → (∀ tid ∈ tids, tid ∉ keysOf g) → goodGrouping g →
      goodGrouping (findTracesLoop st oracle tids g).1 := by
  intro tids
  induction tids with
  | nil =>
    intro g _ _ hg
    simpa [findTracesLoop] using hg
  | cons tid tids ih =>
    intro g hnd hfresh hg
    cases ho : oracle tid with
    | some e => simpa [findTracesLoop, ho] using hg
    | none =>
      simp only [findTracesLoop, ho]
      rcases addFetched_fresh st g tid (fetchSpans st tid)
          (hfresh tid (List.mem_cons_self tid tids)) (fetchSpans_key st tid) with hEq | hEq
      · rw [hEq]
        exact ih g hnd.of_cons
          (fun tid2 h2 => hfresh tid2 (List.mem_cons_of_mem tid h2)) hg
      · rw [hEq]
        refine ih _ hnd.of_cons ?_ ?_
        · intro tid2 h2
          have hne : tid2 ≠ tid := by
            intro e
            exact (List.nodup_cons.1 hnd).1 (e ▸ h2)
          have hng : tid2 ∉ keysOf g := hfresh tid2 (List.mem_cons_of_mem tid h2)
          simp only [keysOf, List.map_append, List.map_cons, List.map_nil,
            List.mem_append, List.mem_singleton, not_or]
          exact ⟨hng, hne⟩
        · intro p hp
          rcases List.mem_append.1 hp with hp | hp
          · exact hg p hp
          · rw [List.mem_singleton.1 hp]
            exact fetchSpans_map_sorted st tid

/-- C7: in every trace returned by the criteria-driven `FindTraces`, spans
are ordered by start time ascending — a span with strictly smaller start
time appears strictly earlier in the trace's span list. -/
theorem findTraces_spans_sorted_by_startTime (st : Storage)
    (oracle : Nat × Nat → Option String) (query : TraceQueryParameters)
    (t : ModelTrace) (ht : t ∈ (FindTracesWith st oracle query).1)
    (i j : Nat) (hi : i < t.spans.length) (hj : j < t.spans.length)
    (hlt : (t.spans.get ⟨i, hi⟩).startTime < (t.spans.get ⟨j, hj⟩).startTime) :
    i < j := by
  have hsorted : t.spans.Sorted (fun a b : ModelSpan => a.startTime ≤ b.startTime) := by
    rcases hL : findTracesLoop st oracle (FindTraceIDs st query) [] with ⟨g, err⟩
    have hgood := findTracesLoop_good st oracle (FindTraceIDs st query) []
      (findTraceIDs_nodup st query) (by intro tid _; simp [keysOf]) (by intro p hp; simp at hp)
    rw [hL] at hgood
    cases err with
    | some e =>
      rw [FindTracesWith, hL] at ht
      simp at ht
    | none =>
      rw [FindTracesWith, hL] at ht
      simp only [List.mem_map] at ht
      rcases ht with ⟨p, hp, hpt⟩
      rw [← hpt]
      exact hgood p hp
  rcases lt_trichotomy i j with h | h | h
  · exact h
  · subst h
    exact absurd hlt (lt_irrefl _)
  · have hrel := hsorted.rel_get_of_lt
      (show (⟨j, hj⟩ : Fin t.spans.length) < ⟨i, hi⟩ from h)
    exact absurd (lt_of_lt_of_le hlt hrel) (lt_irrefl _)

/-- Witness for C7: on `stUnsorted` (storage order reverses time order),
the assembled trace lists the earlier span first. -/
theorem findTraces_spans_sorted_by_startTime_witness : 0 < 1 :=
  findTraces_spans_sorted_by_startTime stUnsorted (fun _ => none) qEmpty traceUnsorted
    (by decide) 0 1 (by decide) (by decide) (by decide)
